import Mathlib

/-!
Verification of the meeting-transcriber transcription pipeline.

This file gives a shallow embedding, in Lean 4, of the post-processing and
backend-orchestration core of the `meeting_transcriber` Python package
(`postprocess.py`, `transcriber.py`, `whisperx.py`, `groq_backend.py`,
`utils.py`), and proves or refutes the specification's testable properties
against it.

Python strings are embedded as Lean `String`; Python `float` second values
are embedded as `ℚ` (exact arithmetic; the claims under study only involve
values on which IEEE doubles are exact).  Character-level predicates
(`str.strip` whitespace, `\w`, lowercasing) are modelled on the Latin +
Cyrillic repertoire that the program's data and hallucination patterns
actually use.
-/

set_option maxRecDepth 100000

namespace MeetingTranscriber

/-- Whitespace test used by Python `str.strip()` / `str.split()` / regex `\s`,
restricted to the ASCII whitespace characters (the texts handled by the
pipeline contain no exotic Unicode spaces). -/
def pyIsSpace (c : Char) : Bool :=
  c == ' ' || c == '\t' || c == '\n' || c == '\r' || c == '\x0b' || c == '\x0c'

/-- Lowercasing of a single character as Python `str.lower()` performs it,
on the ASCII + Cyrillic repertoire: `A`-`Z` map down by 32, `А`-`Я`
(U+0410..U+042F) map down by 0x20, `Ё` (U+0401) maps to `ё` (U+0451). -/
def pyLowerChar (c : Char) : Char :=
  if 'A' ≤ c && c ≤ 'Z' then Char.ofNat (c.toNat + 32)
  else if 0x410 ≤ c.toNat && c.toNat ≤ 0x42F then Char.ofNat (c.toNat + 0x20)
  else if c.toNat == 0x401 then Char.ofNat 0x451
  else c

/-- Python `str.lower()`, character-wise. -/
def pyLower (s : String) : String := ⟨s.data.map pyLowerChar⟩

/-- Python `str.strip()` on a character list: drop leading and trailing
whitespace. -/
def pyStripList (l : List Char) : List Char :=
  ((l.dropWhile pyIsSpace).reverse.dropWhile pyIsSpace).reverse

/-- Python `str.strip()`. -/
def pyStrip (s : String) : String := ⟨pyStripList s.data⟩

/-- Worker for `pySplit`: accumulates the current word (reversed) while
scanning. Mirrors Python `str.split()` with no separator: words are maximal
runs of non-whitespace, empty words never appear. -/
def pyWordsAux (cur : List Char) : List Char → List (List Char)
  | [] => if cur.isEmpty then [] else [cur.reverse]
  | c :: cs =>
    if pyIsSpace c then
      if cur.isEmpty then pyWordsAux [] cs else cur.reverse :: pyWordsAux [] cs
    else
      pyWordsAux (c :: cur) cs

/-- Python `str.split()` (no argument): split on whitespace runs. -/
def pySplit (s : String) : List String :=
  (pyWordsAux [] s.data).map (fun l => ⟨l⟩)

/-- Python `" ".join(ts)`. -/
def joinSpace : List String → String
  | [] => ""
  | [t] => t
  | t :: u :: ts => t ++ " " ++ joinSpace (u :: ts)

/-- Python substring test `needle in haystack` on character lists. -/
def listIsInfix (needle haystack : List Char) : Bool :=
  haystack.tails.any (fun t => needle.isPrefixOf t)

/-- Python substring test `needle in haystack`. -/
def strContains (haystack needle : String) : Bool :=
  listIsInfix needle.data haystack.data

section CleanText

/-- First substitution of `clean_text`: `re.sub(r'\s+', ' ', text)` — every
maximal whitespace run becomes a single space.  `prevWs` records whether the
previous character belonged to a whitespace run already emitted. -/
def collapseWsAux (prevWs : Bool) : List Char → List Char
  | [] => []
  | c :: cs =>
    if pyIsSpace c then
      if prevWs then collapseWsAux true cs else ' ' :: collapseWsAux true cs
    else c :: collapseWsAux false cs

/-- Punctuation class of `clean_text`'s second substitution: `[.,!?;:]`. -/
def isPunctAfterSpace (c : Char) : Bool :=
  c == '.' || c == ',' || c == '!' || c == '?' || c == ';' || c == ':'

/-- Second substitution of `clean_text`: `re.sub(r'\s+([.,!?;:])', r'\1', text)`
— drop a whitespace run immediately preceding one of the listed punctuation
characters.  `pending` holds the whitespace run (reversed) not yet emitted. -/
def rmWsBeforePunctAux (pending : List Char) : List Char → List Char
  | [] => pending.reverse
  | c :: cs =>
    if pyIsSpace c then rmWsBeforePunctAux (c :: pending) cs
    else if isPunctAfterSpace c then c :: rmWsBeforePunctAux [] cs
    else pending.reverse ++ c :: rmWsBeforePunctAux [] cs

/-- Punctuation class of `clean_text`'s third substitution: `[.,!?]`. -/
def isRepPunct (c : Char) : Bool :=
  c == '.' || c == ',' || c == '!' || c == '?'

/-- Third substitution of `clean_text`: `re.sub(r'([.,!?])\1+', r'\1', text)`
— collapse a run of the same punctuation character to one occurrence.
`prev` is the previously scanned character. -/
def collapseRepPunctAux (prev : Option Char) : List Char → List Char
  | [] => []
  | c :: cs =>
    if isRepPunct c && prev == some c then collapseRepPunctAux prev cs
    else c :: collapseRepPunctAux (some c) cs

/-- `postprocess.clean_text`: collapse whitespace runs, remove whitespace
before punctuation, collapse repeated punctuation, strip. -/
def clean_text (text : String) : String :=
  if text = "" then text
  else
    pyStrip ⟨collapseRepPunctAux none
      (rmWsBeforePunctAux [] (collapseWsAux false text.data))⟩

end CleanText

/-- Canonical transcription segment (`{'start','end','text'}` dicts produced
by the backends; `speaker` present only when diarization assigned one). -/
structure Segment where
  start : ℚ
  «end» : ℚ
  text : String
  speaker : Option String := none
deriving DecidableEq, Repr

/-- A backend pass result: the `{'text': ..., 'segments': ...}` dict. -/
structure AsrResult where
  text : String
  segments : List Segment
deriving DecidableEq, Repr

section Regex

/-- Regular expressions, as used by the hallucination patterns: the subset of
Python `re` syntax they exercise (character predicates, concatenation,
alternation, Kleene star; `^`/`$` anchors are handled in `Pattern`). -/
inductive Rx where
  | emp
  | eps
  | chr (p : Char → Bool)
  | cat (a b : Rx)
  | alt (a b : Rx)
  | star (a : Rx)

/-- One closure iteration for `star`: add everything reachable by one more
application of `f` and deduplicate. -/
def iterClosure (f : List Nat → List Nat) : Nat → List Nat → List Nat
  | 0, ps => ps
  | n + 1, ps => iterClosure f n ((ps ++ f (ps)).dedup)

/-- Position-set semantics of `Rx` over the character list `s`: given a set of
start positions, return every position `j` such that some `i` in the set has
`s[i..j)` matching the expression.  `star` is computed as a bounded closure;
`s.length + 1` iterations suffice because positions range over
`0..s.length`. -/
def Rx.shift (s : List Char) : Rx → List Nat → List Nat
  | .emp, _ => []
  | .eps, ps => ps
  | .chr p, ps => ps.filterMap fun i =>
      match s.get? i with
      | some c => if p c then some (i + 1) else none
      | none => none
  | .cat a b, ps => Rx.shift s b (Rx.shift s a ps)
  | .alt a b, ps => (Rx.shift s a ps ++ Rx.shift s b ps).dedup
  | .star a, ps => iterClosure (Rx.shift s a) (s.length + 1) ps.dedup

/-- A compiled hallucination pattern: the regex body with its anchoring.
Matching is case-insensitive in the source (`re.IGNORECASE`); this embedding
runs lowercase pattern literals over the lowercased text. -/
structure Pattern where
  anchoredStart : Bool
  anchoredEnd : Bool
  rx : Rx

/-- Python `pattern.search(s)` truthiness: some substring (constrained by the
anchors) matches.  `$` is modelled as end-of-string, which agrees with `re`
on texts without a trailing newline — segment texts here never carry one. -/
def Pattern.search (p : Pattern) (s : List Char) : Bool :=
  let starts := if p.anchoredStart then [0] else List.range (s.length + 1)
  let stops := Rx.shift s p.rx starts
  if p.anchoredEnd then stops.contains s.length else !stops.isEmpty

/-- Literal word (already lowercase where letters occur). -/
def rxLit (w : String) : Rx :=
  w.data.foldr (fun c acc => Rx.cat (Rx.chr (fun d => d == c)) acc) Rx.eps

/-- Alternation of a list of expressions. -/
def rxAlts (l : List Rx) : Rx := l.foldr Rx.alt Rx.emp

/-- Optional group `(...)?`. -/
def rxOpt (r : Rx) : Rx := Rx.alt Rx.eps r

/-- One-or-more `+`. -/
def rxPlus (r : Rx) : Rx := Rx.cat r (Rx.star r)

/-- Python regex `\w` with `re.UNICODE`, restricted to the ASCII + Cyrillic
repertoire the program's data uses: ASCII alphanumerics, underscore, and the
Cyrillic block U+0400..U+04FF. -/
def pyIsWordChar (c : Char) : Bool :=
  c.isAlphanum || c == '_' || (0x400 ≤ c.toNat && c.toNat ≤ 0x4FF)

/-- `\w*` -/
def wStar : Rx := Rx.star (Rx.chr pyIsWordChar)

/-- `\w+` -/
def wPlus : Rx := rxPlus (Rx.chr pyIsWordChar)

/-- `\s*` -/
def sStar : Rx := Rx.star (Rx.chr pyIsSpace)

/-- `\s+` -/
def sPlus : Rx := rxPlus (Rx.chr pyIsSpace)

/-- Concatenation of a sequence of expressions. -/
def rxSeq (l : List Rx) : Rx := l.foldr Rx.cat Rx.eps

end Regex

section Patterns

/-- Single lowercase-literal character expression. -/
def rxChr (c : Char) : Rx := Rx.chr (fun d => d == c)

/-- `HALLUCINATION_PATTERNS` of `postprocess.py`, compiled: each entry records
its `^`/`$` anchoring and the regex body (with literals lowercased, since the
source compiles with `re.IGNORECASE` and this embedding matches over the
lowercased text). -/
def HALLUCINATION_PATTERNS : List Pattern := [
  -- субтитр\w*\s*(от|by|создан\w*|подготовлен\w*)?\s*(amara|youtube|google)?
  ⟨false, false, rxSeq [rxLit "субтитр", wStar, sStar,
    rxOpt (rxAlts [rxLit "от", rxLit "by",
      Rx.cat (rxLit "создан") wStar, Rx.cat (rxLit "подготовлен") wStar]),
    sStar, rxOpt (rxAlts [rxLit "amara", rxLit "youtube", rxLit "google"])]⟩,
  -- subtitl\w*\s*(by|from)?\s*(amara|youtube)?
  ⟨false, false, rxSeq [rxLit "subtitl", wStar, sStar,
    rxOpt (rxAlts [rxLit "by", rxLit "from"]),
    sStar, rxOpt (rxAlts [rxLit "amara", rxLit "youtube"])]⟩,
  -- титр\w*\s*(от|by)?
  ⟨false, false, rxSeq [rxLit "титр", wStar, sStar,
    rxOpt (rxAlts [rxLit "от", rxLit "by"])]⟩,
  -- продолжение\s+следует
  ⟨false, false, rxSeq [rxLit "продолжение", sPlus, rxLit "следует"]⟩,
  -- to\s+be\s+continued
  ⟨false, false, rxSeq [rxLit "to", sPlus, rxLit "be", sPlus, rxLit "continued"]⟩,
  -- конец\s*(фильма|серии|эпизода)?
  ⟨false, false, rxSeq [rxLit "конец", sStar,
    rxOpt (rxAlts [rxLit "фильма", rxLit "серии", rxLit "эпизода"])]⟩,
  -- the\s+end
  ⟨false, false, rxSeq [rxLit "the", sPlus, rxLit "end"]⟩,
  -- подписыва\w+\s*(на)?\s*(канал)?
  ⟨false, false, rxSeq [rxLit "подписыва", wPlus, sStar,
    rxOpt (rxLit "на"), sStar, rxOpt (rxLit "канал")]⟩,
  -- (ставь\w*|поставь\w*)\s*(лайк\w*|палец)
  ⟨false, false, rxSeq [
    rxAlts [Rx.cat (rxLit "ставь") wStar, Rx.cat (rxLit "поставь") wStar],
    sStar, rxAlts [Rx.cat (rxLit "лайк") wStar, rxLit "палец"]]⟩,
  -- subscribe\s*(to)?\s*(the)?\s*(channel)?
  ⟨false, false, rxSeq [rxLit "subscribe", sStar, rxOpt (rxLit "to"),
    sStar, rxOpt (rxLit "the"), sStar, rxOpt (rxLit "channel")]⟩,
  -- like\s*(and)?\s*subscribe
  ⟨false, false, rxSeq [rxLit "like", sStar, rxOpt (rxLit "and"),
    sStar, rxLit "subscribe"]⟩,
  -- не\s+забуд\w+\s+(подписаться|лайк)
  ⟨false, false, rxSeq [rxLit "не", sPlus, rxLit "забуд", wPlus, sPlus,
    rxAlts [rxLit "подписаться", rxLit "лайк"]]⟩,
  -- спасибо\s+(за\s+)?(просмотр|внимание|подписку)
  ⟨false, false, rxSeq [rxLit "спасибо", sPlus,
    rxOpt (Rx.cat (rxLit "за") sPlus),
    rxAlts [rxLit "просмотр", rxLit "внимание", rxLit "подписку"]]⟩,
  -- thanks?\s+(for\s+)?(watching|viewing)
  ⟨false, false, rxSeq [rxLit "thank", rxOpt (rxChr 's'), sPlus,
    rxOpt (Rx.cat (rxLit "for") sPlus),
    rxAlts [rxLit "watching", rxLit "viewing"]]⟩,
  -- thank\s+you\s+(for\s+)?(watching|viewing)
  ⟨false, false, rxSeq [rxLit "thank", sPlus, rxLit "you", sPlus,
    rxOpt (Rx.cat (rxLit "for") sPlus),
    rxAlts [rxLit "watching", rxLit "viewing"]]⟩,
  -- ^\s*♪+\s*$
  ⟨true, true, rxSeq [sStar, rxPlus (rxChr '♪'), sStar]⟩,
  -- ^\s*\[музыка\]\s*$
  ⟨true, true, rxSeq [sStar, rxChr '[', rxLit "музыка", rxChr ']', sStar]⟩,
  -- ^\s*\[music\]\s*$
  ⟨true, true, rxSeq [sStar, rxChr '[', rxLit "music", rxChr ']', sStar]⟩,
  -- ^\s*\(музыка\)\s*$
  ⟨true, true, rxSeq [sStar, rxChr '(', rxLit "музыка", rxChr ')', sStar]⟩,
  -- ^\s*музыка\s*$
  ⟨true, true, rxSeq [sStar, rxLit "музыка", sStar]⟩,
  -- ^\s*\.\.\.\s*$
  ⟨true, true, rxSeq [sStar, rxLit "...", sStar]⟩,
  -- ^\s*…\s*$
  ⟨true, true, rxSeq [sStar, rxChr '…', sStar]⟩,
  -- www\.\w+\.\w+
  ⟨false, false, rxSeq [rxLit "www.", wPlus, rxChr '.', wPlus]⟩,
  -- ^\s*[.。,،、]+\s*$
  ⟨true, true, rxSeq [sStar,
    rxPlus (Rx.chr (fun c => c == '.' || c == '。' || c == ',' || c == '،' || c == '、')),
    sStar]⟩,
  -- ^\s*\?\s*$
  ⟨true, true, rxSeq [sStar, rxChr '?', sStar]⟩,
  -- ^\s*!\s*$
  ⟨true, true, rxSeq [sStar, rxChr '!', sStar]⟩]

end Patterns

section Filter

/-- `postprocess.is_hallucination`: empty/whitespace-only text, any
hallucination-pattern hit (case-insensitive search), or three-plus words all
identical after lowercasing. -/
def is_hallucination (text : String) : Bool :=
  if pyStrip text = "" then true
  else
    let text_clean := pyStrip text
    if HALLUCINATION_PATTERNS.any (fun p => p.search (pyLower text_clean).data) then
      true
    else
      let words := pySplit text_clean
      if 3 ≤ words.length && ((words.map pyLower).dedup.length == 1) then true
      else false

/-- `postprocess.is_repeated_segment`: a segment repeats the recent window if
its normalized text exactly equals a window entry, or one contains the other
with length ratio at least `threshold`.  Texts shorter than 5 characters are
never treated as repeats.  The float ratio comparison is embedded exactly
over `ℚ` (on the integer lengths involved, the IEEE comparison and the exact
one agree). -/
def is_repeated_segment (current_text : String) (previous_texts : List String)
    (threshold : ℚ := 9 / 10) : Bool :=
  if current_text = "" || previous_texts.isEmpty then false
  else
    let current_clean := pyLower (pyStrip current_text)
    if current_clean.length < 5 then false
    else
      previous_texts.any fun prev =>
        let prev_clean := pyLower (pyStrip prev)
        if prev_clean = "" then false
        else if current_clean = prev_clean then true
        else if strContains prev_clean current_clean || strContains current_clean prev_clean then
          let shorter : ℚ := min current_clean.length prev_clean.length
          let longer : ℚ := max current_clean.length prev_clean.length
          decide (threshold ≤ shorter / longer)
        else false

/-- Sliding-window update of `filter_hallucinations`: append the kept text,
then drop the oldest entry if the window exceeds `repeat_window`. -/
def pushWindow (previous_texts : List String) (text : String)
    (repeat_window : Nat) : List String :=
  let p := previous_texts ++ [text]
  if repeat_window < p.length then p.drop 1 else p

/-- Worker of `filter_hallucinations`: one linear pass, dropping hallucinated
or repeated segments and threading the window of kept texts. -/
def filterHallAux (check_repeats : Bool) (repeat_window : Nat) :
    List Segment → List String → List Segment
  | [], _ => []
  | seg :: rest, previous_texts =>
    let text := pyStrip seg.text
    if is_hallucination text then
      filterHallAux check_repeats repeat_window rest previous_texts
    else if check_repeats && is_repeated_segment text previous_texts then
      filterHallAux check_repeats repeat_window rest previous_texts
    else
      seg :: filterHallAux check_repeats repeat_window rest
        (pushWindow previous_texts text repeat_window)

/-- `postprocess.filter_hallucinations`. -/
def filter_hallucinations (segments : List Segment)
    (check_repeats : Bool := true) (repeat_window : Nat := 3) : List Segment :=
  filterHallAux check_repeats repeat_window segments []

/-- `postprocess.postprocess_transcription` (with `result` a `text`/`segments`
record): filter hallucinations, clean every surviving segment text, and
recompute the full text from the non-empty cleaned segment texts. -/
def postprocess_transcription (result : AsrResult)
    (filter_enabled : Bool := true) : AsrResult :=
  if filter_enabled && !result.segments.isEmpty then
    let segments := filter_hallucinations result.segments
    let segments := segments.map (fun s => { s with text := clean_text s.text })
    let full_text := clean_text (joinSpace
      ((segments.map (fun s => pyStrip s.text)).filter (fun t => t ≠ "")))
    { text := full_text, segments := segments }
  else result

/-- Modelled from the spec: the invariant's right-hand side
`normalize(join(s.text for s in segments if s.text))`, with `normalize` the
§4.2 text normalization (`clean_text`). -/
def normalize_join (segments : List Segment) : String :=
  clean_text (joinSpace ((segments.map Segment.text).filter (fun t => t ≠ "")))

end Filter

section Orchestrator

/-- The result dict built at the end of `EnhancedTranscriber._run_asr_once`
from the engine's streamed segments:
`{'text': " ".join(texts).strip(), 'segments': segs}`, where `texts` collects
each segment's raw `text` in order (both the faster-whisper and the
openai-whisper branches collect exactly the per-segment texts). -/
def run_asr_once_result (segs : List Segment) : AsrResult :=
  { text := pyStrip (joinSpace (segs.map Segment.text)), segments := segs }

/-- An ASR engine pass as the orchestrator sees it: given `use_vad` and the
language hint it either streams a segment list or raises
(`ASRInvocationFailure`, re-raised by `_run_asr_once`). -/
def AsrEngine : Type := Bool → Option String → Except String (List Segment)

/-- The two-pass control flow of `EnhancedTranscriber._transcribe_single`
(local-engine path): pass 1 without VAD; if it yields no segments, pass 2
with VAD and `language or 'ru'`.  Returns the chosen result together with
the trace of `(use_vad, language)` attempts actually made. -/
def two_pass_asr (engine : AsrEngine) (language : Option String) :
    Except String (AsrResult × List (Bool × Option String)) := do
  let segs1 ← engine false language
  let r1 := run_asr_once_result segs1
  if r1.segments.isEmpty then
    let lang2 := some (language.getD "ru")
    let segs2 ← engine true lang2
    pure (run_asr_once_result segs2, [(false, language), (true, lang2)])
  else
    pure (r1, [(false, language)])

/-- Python `int()` truncation on an exact rational. -/
def pyInt (x : ℚ) : ℤ := if 0 ≤ x then x.floor else x.ceil

/-- Zero-padded two-digit rendering, Python `f"{n:02d}"` for the non-negative
values produced by the time formatters. -/
def pad2 (n : ℤ) : String :=
  if 0 ≤ n && n < 10 then "0" ++ toString n else toString n

/-- Zero-padded three-digit rendering, Python `f"{n:03d}"` (non-negative). -/
def pad3 (n : ℤ) : String :=
  if 0 ≤ n && n < 10 then "00" ++ toString n
  else if 0 ≤ n && n < 100 then "0" ++ toString n
  else toString n

/-- `utils.format_timestamp_srt`: `HH:MM:SS,mmm` at millisecond precision. -/
def format_timestamp_srt (seconds : ℚ) : String :=
  let n := pyInt seconds
  let hours := n.fdiv 3600
  let remainder := n.fmod 3600
  let minutes := remainder.fdiv 60
  let secs := remainder.fmod 60
  let ms := pyInt ((seconds - n) * 1000)
  pad2 hours ++ ":" ++ pad2 minutes ++ ":" ++ pad2 secs ++ "," ++ pad3 ms

/-- `EnhancedTranscriber._format_time_short` (and the identical
`WhisperXTranscriber._format_time`): `MM:SS`. -/
def format_time_short (seconds : ℚ) : String :=
  let minutes := (pyInt seconds).fdiv 60
  let secs := (pyInt seconds).fmod 60
  pad2 minutes ++ ":" ++ pad2 secs

/-- One speaker block line of `EnhancedTranscriber._save_txt_diarized`:
`f"[{ts}] {current_speaker}:\n{combined}"`.  The speaker is an `Option`
only because the Python variable starts as `None`; it is always set when a
block is emitted (`getD "None"` mirrors the f-string rendering of `None`). -/
def diarizedLine (speaker : Option String) (texts : List String)
    (start : ℚ) : String :=
  "[" ++ format_time_short start ++ "] " ++ speaker.getD "None" ++ ":\n" ++
    joinSpace texts

/-- Loop of `EnhancedTranscriber._save_txt_diarized`: group consecutive
same-speaker segments (skipping empty texts, defaulting a missing speaker to
`"SPEAKER"`), each group rendered by `diarizedLine` with the group's first
start time. -/
def diarizedGroupsAux : List Segment → Option String → List String → ℚ →
    List String
  | [], current_speaker, current_text, current_start =>
    if current_text.isEmpty then []
    else [diarizedLine current_speaker current_text current_start]
  | seg :: rest, current_speaker, current_text, current_start =>
    let speaker := seg.speaker.getD "SPEAKER"
    let text := pyStrip seg.text
    if text = "" then
      diarizedGroupsAux rest current_speaker current_text current_start
    else if some speaker == current_speaker then
      diarizedGroupsAux rest current_speaker (current_text ++ [text]) current_start
    else
      let tail := diarizedGroupsAux rest (some speaker) [text] seg.start
      if current_text.isEmpty then tail
      else diarizedLine current_speaker current_text current_start :: tail

/-- The block lines written by `EnhancedTranscriber._save_txt_diarized`
(the file body is these lines joined with blank lines). -/
def save_txt_diarized_lines (segments : List Segment) : List String :=
  diarizedGroupsAux segments none [] 0

/-- One SRT cue of `EnhancedTranscriber._save_srt`. -/
def srtCue (idx : Nat) (s : Segment) (include_speaker : Bool) : String :=
  let text := pyStrip s.text
  let text := match s.speaker with
    | some sp => if include_speaker then "[" ++ sp ++ "] " ++ text else text
    | none => text
  toString idx ++ "\n" ++ format_timestamp_srt s.start ++ " --> " ++
    format_timestamp_srt s.«end» ++ "\n" ++ text ++ "\n\n"

/-- The SRT file body written by `EnhancedTranscriber._save_srt`. -/
def save_srt_content (segments : List Segment) (include_speaker : Bool) : String :=
  String.join ((List.range segments.length).zip segments |>.map
    fun p => srtCue (p.1 + 1) p.2 include_speaker)

/-- The output artifact bodies a successful `_transcribe_single` writes:
plain/diarized TXT, the JSON payload's text and segments, and the SRT body. -/
structure Artifacts where
  txt : String
  json_text : String
  json_segments : List Segment
  srt : String
deriving DecidableEq, Repr

/-- End of `EnhancedTranscriber._transcribe_single` after the ASR passes:
fail (return `False`, writing nothing) when the result text is empty after
stripping; otherwise write TXT (diarized when any speaker is present), JSON
and SRT.  An engine exception propagates (`Except.error`). -/
def transcribe_single (engine : AsrEngine) (language : Option String) :
    Except String (Option Artifacts) := do
  let (result, _) ← two_pass_asr engine language
  if pyStrip result.text = "" then
    pure none
  else
    let has_speakers := result.segments.any (fun s => s.speaker.isSome)
    let txt := if has_speakers then
        String.intercalate "\n\n" (save_txt_diarized_lines result.segments)
      else result.text
    pure (some { txt := txt, json_text := result.text,
                 json_segments := result.segments,
                 srt := save_srt_content result.segments has_speakers })

/-- Backend dispatch of `EnhancedTranscriber`: `_transcribe_single` branches
to WhisperX for `backend == 'whisperx'`, otherwise `_run_asr_once` branches
to faster-whisper for `backend == 'faster'` and to openai-whisper for every
other value — including `'groq'` and `'auto'`, for which no branch exists. -/
inductive Engine where
  | whisperx
  | faster
  | openaiWhisper
deriving DecidableEq, Repr

/-- Which engine `EnhancedTranscriber` actually runs for a backend name. -/
def selectEngine (backend : String) : Engine :=
  if backend = "whisperx" then Engine.whisperx
  else if backend = "faster" then Engine.faster
  else Engine.openaiWhisper

/-- Batch loop of `EnhancedTranscriber.transcribe_files`: each file's
processing yields `True`/`False` (counted) or raises; the loop body has no
exception handler, so a raise aborts the remaining files and no final count
is reported. -/
def transcribeFilesAux {α : Type} (process : α → Except String Bool) :
    List α → Nat → Except String Nat
  | [], success => Except.ok success
  | f :: rest, success =>
    match process f with
    | Except.error e => Except.error e
    | Except.ok ok =>
      transcribeFilesAux process rest (success + if ok then 1 else 0)

/-- `EnhancedTranscriber.transcribe_files`: on normal completion, report
`(successes, failures)` as in the final summary line. -/
def transcribe_files {α : Type} (process : α → Except String Bool)
    (files : List α) : Except String (Nat × Nat) :=
  (transcribeFilesAux process files 0).map
    (fun success => (success, files.length - success))

/-- Whether a file's processing returned `True` (success counted by the
batch loop). -/
def reportedOk {α : Type} (process : α → Except String Bool) (f : α) : Bool :=
  match process f with
  | Except.ok true => true
  | _ => false

end Orchestrator

section WhisperX

/-- Result shape of `WhisperXTranscriber.transcribe`. -/
structure WxResult where
  text : String
  segments : List Segment
  language : String
  speakers : List String
deriving DecidableEq, Repr

/-- Insertion sort by the decidable `≤` on strings (Python `sorted`). -/
def sortStrings (l : List String) : List String :=
  l.foldr insertStr []
where
  insertStr (x : String) : List String → List String
    | [] => [x]
    | y :: ys => if x ≤ y then x :: y :: ys else y :: insertStr x ys

/-- Diarization stage and result assembly of `WhisperXTranscriber.transcribe`
(steps 1-2, the external transcription + forced alignment, are inputs:
`aligned` segments carrying no speaker labels, plus the detected language).
When `diarize` is requested but `hf_token` is empty, the stage is skipped
with a warning (returned as the `Bool`); when the diarization pipeline itself
raises, the exception is caught and the aligned segments are kept.  The full
text joins every stripped segment text; `speakers` is the sorted set of
labels observed on segments. -/
def whisperx_transcribe (aligned : List Segment) (detected_language : String)
    (diarize : Bool) (hf_token : String)
    (diarizer : Option (List Segment → List Segment)) : WxResult × Bool :=
  let stage :=
    if diarize then
      if hf_token = "" then (aligned, ([] : List String), true)
      else
        match diarizer with
        | some assign =>
          let segs := assign aligned
          (segs, (segs.filterMap Segment.speaker).dedup, false)
        | none => (aligned, [], false)
    else (aligned, [], false)
  let segments := stage.1
  let speakers_found := stage.2.1
  let full_text := joinSpace (segments.map (fun s => pyStrip s.text))
  ({ text := full_text, segments := segments, language := detected_language,
     speakers := if speakers_found.isEmpty then [] else sortStrings speakers_found },
   stage.2.2)

end WhisperX

section GroqModel

/-- HTTP error classification of `GroqTranscriber.transcribe`
(`groq_backend.py` lines 243-258): 429 raises `GroqRateLimitError`; 413, 401
and any other code raise `GroqAPIError` (non-retriable). -/
inductive GroqErrorKind where
  | rateLimit
  | payloadTooLarge
  | unauthorized
  | serverError
deriving DecidableEq, Repr

/-- Map an HTTP status code to the error the Groq backend raises. -/
def classify_groq_http_error (code : Nat) : GroqErrorKind :=
  if code = 429 then GroqErrorKind.rateLimit
  else if code = 413 then GroqErrorKind.payloadTooLarge
  else if code = 401 then GroqErrorKind.unauthorized
  else GroqErrorKind.serverError

end GroqModel

section StripLemmas

/-- A list left fixed by `dropWhile p` does not start with a `p`-character. -/
theorem not_of_dropWhile_eq_cons {p : Char → Bool} {c : Char} {t : List Char}
    (h : List.dropWhile p (c :: t) = c :: t) : p c = false := by
  cases hpc : p c with
  | false => rfl
  | true =>
    exfalso
    rw [List.dropWhile_cons_of_pos hpc] at h
    have hlen := (List.dropWhile_sublist (l := t) p).length_le
    rw [h] at hlen
    simp only [List.length_cons] at hlen
    omega

/-- `pyStripList` output is left fixed by a further leading `dropWhile`. -/
theorem dropWhile_pyStripList (l : List Char) :
    List.dropWhile pyIsSpace (pyStripList l) = pyStripList l := by
  unfold pyStripList
  set A := l.dropWhile pyIsSpace with hA
  have hAfix : List.dropWhile pyIsSpace A = A := List.dropWhile_idempotent ..
  set R := (A.reverse.dropWhile pyIsSpace).reverse with hR
  have hpre : R <+: A := by
    have hsuf : R.reverse <:+ A.reverse := by
      rw [hR, List.reverse_reverse]
      exact List.dropWhile_suffix pyIsSpace
    exact (List.reverse_suffix).mp hsuf
  match hRe : R with
  | [] => rfl
  | c :: t =>
    obtain ⟨rest, hrest⟩ := hpre
    have hfix2 : List.dropWhile pyIsSpace (c :: (t ++ rest)) = c :: (t ++ rest) := by
      have hsplit : (c :: t) ++ rest = c :: (t ++ rest) := by simp
      rw [← hsplit, hrest]
      exact hAfix
    have hc := not_of_dropWhile_eq_cons hfix2
    exact List.dropWhile_cons_of_neg (by simp [hc])

/-- Stripping is idempotent on character lists. -/
theorem pyStripList_idem (l : List Char) :
    pyStripList (pyStripList l) = pyStripList l := by
  have h1 := dropWhile_pyStripList l
  show ((List.dropWhile pyIsSpace (pyStripList l)).reverse.dropWhile
    pyIsSpace).reverse = pyStripList l
  rw [h1]
  show ((((l.dropWhile pyIsSpace).reverse.dropWhile
    pyIsSpace).reverse.reverse).dropWhile pyIsSpace).reverse = _
  rw [List.reverse_reverse, List.dropWhile_idempotent]
  rfl

/-- `str.strip()` is idempotent. -/
theorem pyStrip_idem (s : String) : pyStrip (pyStrip s) = pyStrip s := by
  show (⟨pyStripList (pyStripList s.data)⟩ : String) = ⟨pyStripList s.data⟩
  rw [pyStripList_idem]

/-- `clean_text` output is already stripped. -/
theorem pyStrip_clean_text (s : String) :
    pyStrip (clean_text s) = clean_text s := by
  rw [clean_text]
  by_cases h : s = ""
  · simp only [h, if_pos rfl]
    rfl
  · simp only [if_neg h]
    exact pyStrip_idem _

/-- A character list made of whitespace strips to nothing. -/
theorem pyStripList_eq_nil_of_all {l : List Char}
    (h : ∀ c ∈ l, pyIsSpace c = true) : pyStripList l = [] := by
  unfold pyStripList
  rw [List.dropWhile_eq_nil_iff.mpr h]
  rfl

/-- Conversely, a list stripping to nothing is all whitespace. -/
theorem all_of_pyStripList_eq_nil {l : List Char}
    (h : pyStripList l = []) : ∀ c ∈ l, pyIsSpace c = true := by
  intro c hc
  unfold pyStripList at h
  have h2 : (l.dropWhile pyIsSpace).reverse.dropWhile pyIsSpace = [] := by
    have := congrArg List.reverse h
    rwa [List.reverse_reverse, List.reverse_nil] at this
  have hall : ∀ x ∈ (l.dropWhile pyIsSpace).reverse, pyIsSpace x = true :=
    List.dropWhile_eq_nil_iff.mp h2
  have hall2 : ∀ x ∈ l.dropWhile pyIsSpace, pyIsSpace x = true := by
    intro x hx
    exact hall x (List.mem_reverse.mpr hx)
  rcases (List.mem_append.mp
      (by rw [List.takeWhile_append_dropWhile]; exact hc :
        c ∈ l.takeWhile pyIsSpace ++ l.dropWhile pyIsSpace)) with h1 | h1
  · exact List.mem_takeWhile_imp h1
  · exact hall2 c h1

/-- Characters of `joinSpace ts` come from the elements or are the separator. -/
theorem mem_joinSpace_chars {ts : List String} {c : Char}
    (h : c ∈ (joinSpace ts).data) : (∃ t ∈ ts, c ∈ t.data) ∨ c = ' ' := by
  induction ts with
  | nil => simp [joinSpace] at h
  | cons t rest ih =>
    match rest with
    | [] =>
      exact Or.inl ⟨t, List.mem_cons_self .., h⟩
    | u :: more =>
      rw [joinSpace] at h
      rw [String.data_append, String.data_append] at h
      rcases List.mem_append.mp h with h1 | h1
      · rcases List.mem_append.mp h1 with h2 | h2
        · exact Or.inl ⟨t, List.mem_cons_self .., h2⟩
        · right
          simpa using h2
      · rcases ih h1 with ⟨v, hv, hcv⟩ | h2
        · exact Or.inl ⟨v, List.mem_cons_of_mem _ hv, hcv⟩
        · exact Or.inr h2

/-- Joining whitespace-only texts with spaces strips to the empty string. -/
theorem pyStrip_joinSpace_eq_empty {ts : List String}
    (h : ∀ t ∈ ts, pyStrip t = "") : pyStrip (joinSpace ts) = "" := by
  show (⟨pyStripList (joinSpace ts).data⟩ : String) = ⟨[]⟩
  congr 1
  apply pyStripList_eq_nil_of_all
  intro c hc
  rcases mem_joinSpace_chars hc with ⟨t, ht, hct⟩ | hsp
  · have : pyStripList t.data = [] := congrArg String.data (h t ht)
    exact all_of_pyStripList_eq_nil this c hct
  · rw [hsp]; rfl

/-- Lowercasing preserves string length. -/
theorem pyLower_length (s : String) : (pyLower s).length = s.length := by
  show (s.data.map pyLowerChar).length = s.data.length
  exact List.length_map ..

/-- Stripping the already-stripped texts of cleaned segments changes
nothing: `clean_text` output is stripped. -/
theorem map_pyStrip_cleaned (F : List Segment) :
    (F.map (fun s => { s with text := clean_text s.text })).map
        (fun s => pyStrip s.text) =
      (F.map (fun s => { s with text := clean_text s.text })).map Segment.text := by
  rw [List.map_map, List.map_map]
  apply List.map_eq_map_iff.mpr
  intro y _
  exact pyStrip_clean_text y.text

end StripLemmas

section Claims

/-- C2: the spec's cloud-to-local fallback chain (HTTP 429 from the Groq
backend, with `ASR_FALLBACK`, retried once against the local backend) does
not exist in the orchestrator.  The Groq backend does classify 429 as the
rate-limit error, but `EnhancedTranscriber` has no `groq` branch at all:
`backend = "groq"` (and `"auto"`) is dispatched to the openai-whisper local
engine, `GroqTranscriber.transcribe` is never invoked by the orchestrator,
and no handler for `GroqRateLimitError` exists anywhere, so neither the
retry-once-locally behaviour nor the fail-with-`RateLimited` behaviour is
implemented. -/
theorem groq_fallback_chain_unimplemented :
    classify_groq_http_error 429 = GroqErrorKind.rateLimit ∧
    selectEngine "groq" = Engine.openaiWhisper ∧
    selectEngine "auto" = Engine.openaiWhisper := by
  refine ⟨rfl, ?_, ?_⟩ <;> decide

/-- C3: with a local-engine backend, if the first (no-VAD) pass returns at
least one segment, the VAD fallback pass is never invoked: the attempt trace
is exactly the single no-VAD attempt and its result is returned, whatever the
segment texts are. -/
theorem no_vad_pass_nonempty_skips_fallback (engine : AsrEngine)
    (language : Option String) (segs : List Segment)
    (h1 : engine false language = Except.ok segs) (h2 : segs ≠ []) :
    two_pass_asr engine language =
      Except.ok (run_asr_once_result segs, [(false, language)]) := by
  unfold two_pass_asr
  rw [h1]
  cases segs with
  | nil => exact absurd rfl h2
  | cons s rest => rfl

/-- Witness for C3 at a concrete engine: a single-segment first pass is
returned unchanged with a one-attempt trace. -/
theorem no_vad_pass_nonempty_skips_fallback_witness :
    two_pass_asr (fun _ _ => Except.ok [⟨0, 1, "hi", none⟩]) none =
      Except.ok (run_asr_once_result [⟨0, 1, "hi", none⟩], [(false, none)]) :=
  no_vad_pass_nonempty_skips_fallback (fun _ _ => Except.ok [⟨0, 1, "hi", none⟩])
    none [⟨0, 1, "hi", none⟩] rfl (by decide)

/-- C1 counterexample: the `text` field assembled by a single ASR pass is
`" ".join(texts).strip()`, which differs from the normalized join whenever a
segment text carries leading whitespace (as Whisper segment texts do): two
segments `" a"`, `" b"` produce `"a  b"` with a double space, while the
normalized join is `"a b"`. -/
theorem asr_pass_text_vs_normalized_join :
    (run_asr_once_result [⟨0, 1, " a", none⟩, ⟨1, 2, " b", none⟩]).text ≠
      normalize_join
        (run_asr_once_result [⟨0, 1, " a", none⟩, ⟨1, 2, " b", none⟩]).segments := by
  decide

/-- C1 (amended): after post-processing, the invariant holds — for every
segment list an ASR pass may stream, the post-processed result's `text`
equals the normalized join of its non-empty segment texts. -/
theorem text_invariant_after_postprocess (segs : List Segment) :
    (postprocess_transcription (run_asr_once_result segs) true).text =
      normalize_join
        (postprocess_transcription (run_asr_once_result segs) true).segments := by
  cases segs with
  | nil => decide
  | cons s rest =>
    unfold postprocess_transcription normalize_join run_asr_once_result
    simp only [List.isEmpty_cons, Bool.not_false, Bool.and_self, if_true,
      Bool.true_and, Bool.and_true, ite_true]
    rw [map_pyStrip_cleaned]

/-- Helper: `Except` bind on a success value. -/
theorem except_ok_bind {ε α β : Type} (a : α) (f : α → Except ε β) :
    (Except.ok a : Except ε α) >>= f = f a := rfl

/-- Helper for C4: when the no-VAD pass streams no segments and the VAD pass
streams `segs2`, the two-pass orchestration returns the second pass's result,
with both attempts in the trace. -/
theorem two_pass_both_attempts (engine : AsrEngine) (language : Option String)
    (segs2 : List Segment) (h1 : engine false language = Except.ok [])
    (h2 : engine true (some (language.getD "ru")) = Except.ok segs2) :
    two_pass_asr engine language =
      Except.ok (run_asr_once_result segs2,
        [(false, language), (true, some (language.getD "ru"))]) := by
  unfold two_pass_asr
  rw [h1]
  show Except.bind (engine true (some (language.getD "ru"))) _ = _
  rw [h2]
  rfl

/-- C4: if the no-VAD pass yields zero segments and the VAD fallback pass
yields only whitespace texts (in particular, zero segments), the file's
transcription fails — `_transcribe_single` returns `False` (`none` here) and
no TXT/JSON/SRT artifact is produced. -/
theorem both_passes_empty_fails_without_artifacts (engine : AsrEngine)
    (language : Option String) (segs2 : List Segment)
    (h1 : engine false language = Except.ok [])
    (h2 : engine true (some (language.getD "ru")) = Except.ok segs2)
    (h3 : ∀ s ∈ segs2, pyStrip s.text = "") :
    transcribe_single engine language = Except.ok none := by
  have htext : pyStrip (run_asr_once_result segs2).text = "" := by
    show pyStrip (pyStrip (joinSpace (segs2.map Segment.text))) = ""
    rw [pyStrip_idem]
    apply pyStrip_joinSpace_eq_empty
    intro t ht
    obtain ⟨s, hs, rfl⟩ := List.mem_map.mp ht
    exact h3 s hs
  unfold transcribe_single
  rw [two_pass_both_attempts engine language segs2 h1 h2, except_ok_bind]
  simp only [htext, if_pos]
  rfl

/-- Witness for C4: an engine whose no-VAD pass is empty and whose VAD pass
streams one whitespace-only segment produces no artifacts. -/
theorem both_passes_empty_fails_without_artifacts_witness :
    transcribe_single
      (fun v _ => if v then Except.ok [⟨0, 1, " ", none⟩]
                  else Except.ok ([] : List Segment)) none = Except.ok none :=
  both_passes_empty_fails_without_artifacts
    (fun v _ => if v then Except.ok [⟨0, 1, " ", none⟩]
                else Except.ok ([] : List Segment))
    none [⟨0, 1, " ", none⟩] rfl rfl (by decide)

/-- C5 counterexample: an engine-level exception while processing the first
file of a two-file batch aborts the whole batch — `transcribe_files` has no
per-file exception handler, so the error propagates, the second file is
never processed and no success/failure count is reported. -/
theorem batch_aborts_on_engine_exception :
    transcribe_files
        (fun n : Nat => if n = 0 then Except.error "ASR engine exception"
                        else Except.ok true) [0, 1] =
      Except.error "ASR engine exception" ∧
    (transcribe_files
        (fun n : Nat => if n = 0 then Except.error "ASR engine exception"
                        else Except.ok true) [0, 1]).isOk = false :=
  ⟨rfl, rfl⟩

/-- Helper for C5: the batch loop with a raise-free per-file process counts
`True` returns on top of the accumulator. -/
theorem transcribeFilesAux_no_raise {α : Type} (process : α → Except String Bool) :
    ∀ (files : List α) (success : Nat),
      (∀ f ∈ files, ∃ b, process f = Except.ok b) →
      transcribeFilesAux process files success =
        Except.ok (success + files.countP (reportedOk process)) := by
  intro files
  induction files with
  | nil =>
    intro success _
    simp [transcribeFilesAux]
  | cons f rest ih =>
    intro success h
    obtain ⟨b, hb⟩ := h f (List.mem_cons_self ..)
    have hrest : ∀ g ∈ rest, ∃ b, process g = Except.ok b :=
      fun g hg => h g (List.mem_cons_of_mem _ hg)
    rw [transcribeFilesAux, hb]
    show transcribeFilesAux process rest (success + if b then 1 else 0) = _
    rw [ih _ hrest, List.countP_cons]
    cases b <;> simp [reportedOk, hb, Except.ok.injEq]
    omega

/-- C5 (amended): per-file failures that `_transcribe_single` reports by
returning `False` (missing/corrupt file, conversion failure, empty
transcription) are isolated — the batch processes every file and reports
the success/failure counts; an engine-level exception, by contrast, is not
caught by the batch loop (see the counterexample). -/
theorem batch_counts_reported_failures {α : Type}
    (process : α → Except String Bool) (files : List α)
    (h : ∀ f ∈ files, ∃ b, process f = Except.ok b) :
    transcribe_files process files =
      Except.ok (files.countP (reportedOk process),
        files.length - files.countP (reportedOk process)) := by
  unfold transcribe_files
  rw [transcribeFilesAux_no_raise process files 0 h]
  simp [Except.map, Nat.zero_add]

/-- Witness for C5 (amended): a three-file batch with one reported failure
completes and reports 2 successes, 1 failure. -/
theorem batch_counts_reported_failures_witness :
    transcribe_files
        (fun n : Nat => if n = 1 then Except.ok false else Except.ok true)
        [0, 1, 2] = Except.ok (2, 1) :=
  (batch_counts_reported_failures
      (fun n : Nat => if n = 1 then Except.ok false else Except.ok true)
      [0, 1, 2]
      (by intro f hf; fin_cases hf <;> exact ⟨_, rfl⟩)).trans rfl

/-- Helper for C6: the filter worker is idempotent for every starting
window.  On a second pass every element is kept, so at each position the
window of kept texts is the same one the element was checked against in the
first pass. -/
theorem filterHallAux_idem (cr : Bool) (w : Nat) :
    ∀ (l : List Segment) (p : List String),
      filterHallAux cr w (filterHallAux cr w l p) p = filterHallAux cr w l p := by
  intro l
  induction l with
  | nil => intro p; rfl
  | cons seg rest ih =>
    intro p
    by_cases h1 : is_hallucination (pyStrip seg.text) = true
    · have e1 : filterHallAux cr w (seg :: rest) p = filterHallAux cr w rest p := by
        rw [filterHallAux]
        simp [h1]
      rw [e1]
      exact ih p
    · by_cases h2 : (cr && is_repeated_segment (pyStrip seg.text) p) = true
      · have e1 : filterHallAux cr w (seg :: rest) p = filterHallAux cr w rest p := by
          rw [filterHallAux]
          simp [h1, h2]
        rw [e1]
        exact ih p
      · have e1 : filterHallAux cr w (seg :: rest) p =
            seg :: filterHallAux cr w rest (pushWindow p (pyStrip seg.text) w) := by
          rw [filterHallAux]
          simp [h1, h2]
        rw [e1]
        have e2 : filterHallAux cr w
            (seg :: filterHallAux cr w rest (pushWindow p (pyStrip seg.text) w)) p =
            seg :: filterHallAux cr w
              (filterHallAux cr w rest (pushWindow p (pyStrip seg.text) w))
              (pushWindow p (pyStrip seg.text) w) := by
          rw [filterHallAux]
          simp [h1, h2]
        rw [e2, ih (pushWindow p (pyStrip seg.text) w)]

/-- C6: the hallucination filter is idempotent — filtering an
already-filtered segment list (with the same `check_repeats` and
`repeat_window`) returns it unchanged. -/
theorem filter_hallucinations_idempotent (segments : List Segment)
    (check_repeats : Bool) (repeat_window : Nat) :
    filter_hallucinations
        (filter_hallucinations segments check_repeats repeat_window)
        check_repeats repeat_window =
      filter_hallucinations segments check_repeats repeat_window :=
  filterHallAux_idem check_repeats repeat_window segments []

/-- C7: on the three-segment list `["Субтитры от Amara.org",
"привет привет привет", "как дела"]` the filter drops the first segment (a
subtitle-boilerplate pattern hit) and the second (three identical words),
keeping exactly `"как дела"`. -/
theorem filter_scenario_boilerplate_and_repetition :
    is_hallucination "Субтитры от Amara.org" = true ∧
    is_hallucination "привет привет привет" = true ∧
    is_hallucination "как дела" = false ∧
    filter_hallucinations
        [⟨0, 1, "Субтитры от Amara.org", none⟩,
         ⟨1, 2, "привет привет привет", none⟩,
         ⟨2, 3, "как дела", none⟩] = [⟨2, 3, "как дела", none⟩] := by
  refine ⟨?_, ?_, ?_, ?_⟩ <;> decide

/-- C8: speaker-grouped rendering of
`[(0,2,"hi","A"), (2,4,"yo","A"), (4,6,"hey","B")]` merges the two
consecutive `A` segments into one block and produces exactly the two blocks
`[00:00] A: hi yo` and `[00:04] B: hey`. -/
theorem speaker_grouping_scenario :
    save_txt_diarized_lines
        [⟨0, 2, "hi", some "A"⟩, ⟨2, 4, "yo", some "A"⟩,
         ⟨4, 6, "hey", some "B"⟩] =
      ["[00:00] A:\nhi yo", "[00:04] B:\nhey"] := by
  decide

/-- C9: when diarization is requested but the HF token is absent, the
WhisperX backend still completes: the diarization stage is skipped with a
warning, the aligned segments are returned untouched (hence carry no speaker
label when alignment produced none), and `speakers` is empty. -/
theorem diarization_skipped_without_credential (aligned : List Segment)
    (language : String) (diarizer : Option (List Segment → List Segment))
    (h : ∀ s ∈ aligned, s.speaker = none) :
    (whisperx_transcribe aligned language true "" diarizer).1.speakers = [] ∧
    (whisperx_transcribe aligned language true "" diarizer).2 = true ∧
    (whisperx_transcribe aligned language true "" diarizer).1.segments = aligned ∧
    ∀ s ∈ (whisperx_transcribe aligned language true "" diarizer).1.segments,
      s.speaker = none := by
  refine ⟨rfl, rfl, rfl, ?_⟩
  intro s hs
  exact h s hs

/-- Witness for C9 at a concrete aligned segment list. -/
theorem diarization_skipped_without_credential_witness :
    (whisperx_transcribe [⟨0, 1, "hi", none⟩] "ru" true "" none).1.speakers = [] ∧
    (whisperx_transcribe [⟨0, 1, "hi", none⟩] "ru" true "" none).2 = true :=
  ⟨(diarization_skipped_without_credential [⟨0, 1, "hi", none⟩] "ru" none
      (by decide)).1,
   (diarization_skipped_without_credential [⟨0, 1, "hi", none⟩] "ru" none
      (by decide)).2.1⟩

/-- C10: duplicate suppression never touches short segments — a text whose
stripped form has fewer than 5 characters is never classified as a repeat,
whatever the window holds; consequently, in the filter, a short segment that
is not a hallucination always survives. -/
theorem short_segments_never_dropped_as_repeats :
    (∀ (t : String) (prev : List String), (pyStrip t).length < 5 →
      is_repeated_segment t prev = false) ∧
    (∀ (segs : List Segment) (cr : Bool) (w : Nat) (s : Segment),
      s ∈ segs → (pyStrip s.text).length < 5 →
      is_hallucination (pyStrip s.text) = false →
      s ∈ filter_hallucinations segs cr w) := by
  have part1 : ∀ (t : String) (prev : List String), (pyStrip t).length < 5 →
      is_repeated_segment t prev = false := by
    intro t prev h
    unfold is_repeated_segment
    split
    · rfl
    · simp only []
      rw [if_pos]
      rw [pyLower_length]
      exact h
  refine ⟨part1, ?_⟩
  have aux : ∀ (cr : Bool) (w : Nat) (s : Segment),
      (pyStrip s.text).length < 5 →
      is_hallucination (pyStrip s.text) = false →
      ∀ (l : List Segment) (p : List String), s ∈ l →
        s ∈ filterHallAux cr w l p := by
    intro cr w s hshort hnh l
    induction l with
    | nil => intro p hmem; cases hmem
    | cons seg rest ih =>
      intro p hmem
      by_cases h1 : is_hallucination (pyStrip seg.text) = true
      · have e1 : filterHallAux cr w (seg :: rest) p = filterHallAux cr w rest p := by
          rw [filterHallAux]
          simp [h1]
        rw [e1]
        rcases List.mem_cons.mp hmem with rfl | hmem'
        · rw [hnh] at h1
          cases h1
        · exact ih p hmem'
      · by_cases h2 : (cr && is_repeated_segment (pyStrip seg.text) p) = true
        · have e1 : filterHallAux cr w (seg :: rest) p = filterHallAux cr w rest p := by
            rw [filterHallAux]
            simp [h1, h2]
          rw [e1]
          rcases List.mem_cons.mp hmem with rfl | hmem'
          · exfalso
            have hshort2 : (pyStrip (pyStrip s.text)).length < 5 := by
              rw [pyStrip_idem]
              exact hshort
            rw [part1 (pyStrip s.text) p hshort2, Bool.and_false] at h2
            cases h2
          · exact ih p hmem'
        · have e1 : filterHallAux cr w (seg :: rest) p =
              seg :: filterHallAux cr w rest (pushWindow p (pyStrip seg.text) w) := by
            rw [filterHallAux]
            simp [h1, h2]
          rw [e1]
          rcases List.mem_cons.mp hmem with rfl | hmem'
          · exact List.mem_cons_self ..
          · exact List.mem_cons_of_mem _ (ih _ hmem')
  intro segs cr w s hmem hshort hnh
  exact aux cr w s hshort hnh segs [] hmem

/-- Witness for C10: the two-character segment `"да"` is not classified as a
repeat even with `"да"` in the window, and a short non-hallucinated segment
survives filtering next to a duplicate of itself. -/
theorem short_segments_never_dropped_as_repeats_witness :
    is_repeated_segment "да" ["да", "да тут был", "ок"] = false ∧
    (⟨1, 2, "да", none⟩ : Segment) ∈
      filter_hallucinations [⟨0, 1, "да", none⟩, ⟨1, 2, "да", none⟩] true 3 :=
  ⟨short_segments_never_dropped_as_repeats.1 "да" ["да", "да тут был", "ок"]
      (by decide),
   short_segments_never_dropped_as_repeats.2
      [⟨0, 1, "да", none⟩, ⟨1, 2, "да", none⟩] true 3 ⟨1, 2, "да", none⟩
      (by decide) (by decide) (by decide)⟩

end Claims

end MeetingTranscriber
